import Mathlib

/-!
# expvarmon

A shallow embedding of `expvars.go` (`FetchExpvar`, `ParseExpvar`) and of `main.go`
(`initConfiguration`, `main`, `UpdateAll`), followed by the properties proved about them.

Calls that leave the two files are taken from an environment: the HTTP transport and the
JSON decoder (`Net`), the command line, the configuration file and the helpers of the
other files of the package (`World`).  Effects are recorded as lists of events.
-/

namespace Expvarmon

/-! ## expvars.go -/

/-- The default url for fetching expvar info. -/
def ExpvarsURL : String := "/debug/vars"

/-- The constant `http.StatusNotFound`. -/
def StatusNotFound : Int := 404

/-- Go `error` values met in `FetchExpvar`: the value built on the spot by `errors.New`,
or an error value handed back by a library call and passed on unchanged. -/
inductive GoError (ε : Type) where
  | errorsNew (msg : String)
  | fromLib (e : ε)
  deriving DecidableEq, Repr

/-- The text returned by the method `Error()`, given the text of library errors. -/
def GoError.Error {ε : Type} (text : ε → String) : GoError ε → String
  | .errorsNew msg => msg
  | .fromLib e => text e

/-- Expvar represents fetched expvar variable: it wraps a `*jason.Object`
(`none` is the nil pointer). -/
structure Expvar (Obj : Type) where
  Object : Option Obj
  deriving DecidableEq, Repr

/-- The fields of `http.Response` read by `FetchExpvar`. -/
structure Response (β : Type) where
  StatusCode : Int
  Body : β
  deriving DecidableEq, Repr

/-- The library calls made by `expvars.go`.  `httpGet` is `http.Get` (either an error or a
response), `NewObjectFromReader` is `jason.NewObjectFromReader` (a pointer and an error, as
in Go), `emptyObject` is the value `jason.Object{}`. -/
structure Net (β Obj ε : Type) where
  httpGet : String → Except ε (Response β)
  NewObjectFromReader : β → Option Obj × Option ε
  emptyObject : Obj

/-- What `FetchExpvar` does to the outside: the GET, the decoding of a body, and the
deferred `resp.Body.Close()`. -/
inductive NetEvent (β : Type) where
  | get (addr : String)
  | parse (body : β)
  | close (body : β)
  deriving DecidableEq, Repr

/-- ParseExpvar parses expvar data from reader. -/
def ParseExpvar {β Obj ε : Type} (net : Net β Obj ε) (r : β) :
    Expvar Obj × Option (GoError ε) :=
  let (object, err) := net.NewObjectFromReader r
  (⟨object⟩, err.map GoError.fromLib)

/-- FetchExpvar fetches expvar by http for the given addr (host:port).
The result is the Go pair `(e, err)` together with the events performed, in order. -/
def FetchExpvar {β Obj ε : Type} (net : Net β Obj ε) (addr : String) :
    (Expvar Obj × Option (GoError ε)) × List (NetEvent β) :=
  let e : Expvar Obj := ⟨some net.emptyObject⟩
  match net.httpGet addr with
  | .error err => ((e, some (.fromLib err)), [.get addr])
  | .ok resp =>
    if resp.StatusCode = StatusNotFound then
      ((e, some (.errorsNew "Vars not found. Did you import expvars?")),
        [.get addr, .close resp.Body])
    else
      let (e, err) := ParseExpvar net resp.Body
      match err with
      | some err => ((e, some err), [.get addr, .parse resp.Body, .close resp.Body])
      | none => ((e, none), [.get addr, .parse resp.Body, .close resp.Body])

/-! ## main.go: arguments, flags and configuration -/

/-- A `time.Duration`: a number of nanoseconds. -/
abbrev Duration := Int

/-- The constant `time.Second`. -/
def Second : Duration := 1000000000

/-- The constant `time.Minute`. -/
def Minute : Duration := 60 * Second

/-- Structure of all arguments (CLI or config items) to this program. -/
structure arguments where
  interval : Duration
  ports : String
  vars : String
  dummy : Bool
  self : Bool
  endpoint : String
  debug : Bool
  deriving DecidableEq, Repr

/-- The default values of the arguments. -/
def defaults : arguments :=
  { interval := 5 * Second
    ports := ""
    vars := "mem:memstats.Alloc,mem:memstats.Sys,mem:memstats.HeapAlloc,mem:memstats.HeapInuse,duration:memstats.PauseNs,duration:memstats.PauseTotalNs"
    dummy := false
    self := false
    endpoint := "/debug/vars"
    debug := false }

/-- A value held by a flag or by the configuration store. -/
inductive Val where
  | duration (d : Duration)
  | str (s : String)
  | bool (b : Bool)
  | strs (l : List String)
  deriving DecidableEq, Repr

/-- Two values are of the same kind, as a flag only accepts a value of its own type. -/
def Val.sameKind : Val → Val → Bool
  | .duration _, .duration _ => true
  | .str _, .str _ => true
  | .bool _, .bool _ => true
  | .strs _, .strs _ => true
  | _, _ => false

/-- A `pflag.Flag`: its name, current value, default value, and whether it was set. -/
structure Flag where
  Name : String
  Value : Val
  DefValue : Val
  Changed : Bool
  deriving DecidableEq, Repr

/-- The flag definition `flag.Duration/String/Bool(name, value, usage)`. -/
def Flag.define (name : String) (value : Val) : Flag :=
  { Name := name, Value := value, DefValue := value, Changed := false }

/-- The flags registered by the `var` block of main.go, in order. -/
def CommandLine : List Flag :=
  [ Flag.define "i" (.duration defaults.interval),
    Flag.define "ports" (.str defaults.ports),
    Flag.define "vars" (.str defaults.vars),
    Flag.define "dummy" (.bool defaults.dummy),
    Flag.define "self" (.bool defaults.self),
    Flag.define "endpoint" (.str defaults.endpoint),
    Flag.define "debug" (.bool defaults.debug) ]

/-- The call `flag.Lookup(name)`: the flag of that name, or nil. -/
def Lookup (fs : List Flag) (name : String) : Option Flag :=
  fs.find? (fun f => f.Name == name)

/-- Setting one flag from the command line; `none` when no such flag is defined or the
value is not of the flag's type. -/
def setFlag (fs : List Flag) (name : String) (v : Val) : Option (List Flag) :=
  match Lookup fs name with
  | none => none
  | some f =>
    if f.Value.sameKind v then
      some (fs.map (fun g => if g.Name == name then { g with Value := v, Changed := true } else g))
    else none

/-- The call `flag.Parse()` on the command line given as name/value pairs; `none` is the
usage error, on which the flag package exits with status 2. -/
def flagParse (fs : List Flag) : List (String × Val) → Option (List Flag)
  | [] => some fs
  | (name, v) :: rest =>
    match setFlag fs name v with
    | none => none
    | some fs1 => flagParse fs1 rest

/-- The configuration store of viper as far as main.go uses it: the loaded configuration
file, the defaults, and the flags bound to keys. -/
structure Viper where
  config : List (String × Val)
  defaults : List (String × Val)
  pflags : List (String × Flag)
  deriving Repr

/-- The call `viper.SetDefault(key, value)`. -/
def Viper.SetDefault (v : Viper) (key : String) (value : Val) : Viper :=
  { v with defaults := (key, value) :: v.defaults }

/-- The call `viper.BindPFlag(key, flag)`: a nil flag is refused with an error and binds
nothing. -/
def Viper.BindPFlag (v : Viper) (key : String) (flag : Option Flag) : Viper × Option String :=
  match flag with
  | none => (v, some ("flag for \"" ++ key ++ "\" is nil"))
  | some f => ({ v with pflags := (key, f) :: v.pflags }, none)

/-- The lookup behind every getter of viper: a bound flag that was set on the command line
comes first, then the configuration file, then the default. -/
def Viper.find (v : Viper) (key : String) : Option Val :=
  match (match v.pflags.lookup key with
         | some f => if f.Changed then some f.Value else none
         | none => none) with
  | some x => some x
  | none =>
    match v.config.lookup key with
    | some x => some x
    | none => v.defaults.lookup key

/-- The predicate `unicode.IsSpace`. -/
def isSpace (c : Char) : Bool :=
  let n := c.toNat
  (9 ≤ n && n ≤ 13) || n == 32 || n == 133 || n == 160 || n == 5760
    || (8192 ≤ n && n ≤ 8202) || n == 8232 || n == 8233 || n == 8239 || n == 8287
    || n == 12288

/-- The worker of `Fields`: `cur` holds the characters of the field being read, reversed. -/
def fieldsAux : List Char → List Char → List String
  | [], cur => if cur.isEmpty then [] else [String.mk cur.reverse]
  | c :: cs, cur =>
    if isSpace c then
      (if cur.isEmpty then fieldsAux cs [] else String.mk cur.reverse :: fieldsAux cs [])
    else fieldsAux cs (c :: cur)

/-- The function `strings.Fields`: the maximal runs of non-space characters. -/
def Fields (s : String) : List String :=
  fieldsAux s.toList []

/-- The getter `viper.GetDuration`; a value that is no duration converts to zero. -/
def Viper.GetDuration (v : Viper) (key : String) : Duration :=
  match v.find key with
  | some (.duration d) => d
  | _ => 0

/-- The getter `viper.GetBool`. -/
def Viper.GetBool (v : Viper) (key : String) : Bool :=
  match v.find key with
  | some (.bool b) => b
  | _ => false

/-- The getter `viper.GetString`. -/
def Viper.GetString (v : Viper) (key : String) : String :=
  match v.find key with
  | some (.str s) => s
  | _ => ""

/-- The getter `viper.GetStringSlice`; a string converts to its fields. -/
def Viper.GetStringSlice (v : Viper) (key : String) : List String :=
  match v.find key with
  | some (.strs l) => l
  | some (.str s) => Fields s
  | _ => []

/-- The package-level configuration variables of main.go. -/
structure Globals where
  interval : Duration
  urls : List String
  varsArg : List String
  dummy : Bool
  self : Bool
  endpoint : String
  debug : Bool
  deriving DecidableEq, Repr

/-- The zero values the package-level variables hold when `main` starts. -/
def Globals.zero : Globals :=
  { interval := 0, urls := [], varsArg := [], dummy := false, self := false,
    endpoint := "", debug := false }

/-- The store after the `SetDefault` and `BindPFlag` calls of `initConfiguration`, given
the flags and the loaded configuration file.  The errors of `BindPFlag` are dropped, as in
the source. -/
def configStore (flags : List Flag) (cfg : List (String × Val)) : Viper :=
  let v : Viper := { config := cfg, defaults := [], pflags := [] }
  -- set default values
  let v := v.SetDefault "interval" (.duration defaults.interval)
  let v := v.SetDefault "ports" (.str defaults.ports)
  let v := v.SetDefault "vars" (.str defaults.vars)
  let v := v.SetDefault "dummy" (.bool defaults.dummy)
  let v := v.SetDefault "self" (.bool defaults.self)
  let v := v.SetDefault "endpoint" (.str defaults.endpoint)
  let v := v.SetDefault "debug" (.bool defaults.debug)
  -- bind viper config options to flags
  let v := (v.BindPFlag "i" (Lookup flags "interval")).1
  let v := (v.BindPFlag "ports" (Lookup flags "ports")).1
  let v := (v.BindPFlag "vars" (Lookup flags "vars")).1
  let v := (v.BindPFlag "dummy" (Lookup flags "dummy")).1
  let v := (v.BindPFlag "self" (Lookup flags "self")).1
  let v := (v.BindPFlag "endpoint" (Lookup flags "endpoint")).1
  let v := (v.BindPFlag "debug" (Lookup flags "debug")).1
  v

/-- initConfiguration loads the configuration file.  `configFile` is the outcome of
`viper.ReadInConfig()`: the keys of the file, or the error on which the function panics.
On success the package-level variables are assigned from the store. -/
def initConfiguration (flags : List Flag) (configFile : Except String (List (String × Val)))
    (g : Globals) : Except String Globals :=
  match configFile with
  | .error err => .error ("Fatal error config file: " ++ err ++ " \n")
  | .ok cfg =>
    let v := configStore flags cfg
    -- assign viper-provided values to the global configuration variables
    .ok { g with
          interval := v.GetDuration "interval"
          dummy := v.GetBool "dummy"
          urls := v.GetStringSlice "ports"
          varsArg := v.GetStringSlice "vars"
          self := v.GetBool "self"
          endpoint := v.GetString "endpoint" }

/-! ## main.go: the program -/

/-- The render sinks between which `main` chooses. -/
inductive UIKind where
  | TermUI
  | TermUISingle
  | DummyUI
  deriving DecidableEq, Repr

/-- The constants of `termui.EventType`. -/
inductive EventType where
  | EventKey
  | EventResize
  | EventMouse
  | EventError
  | EventInterrupt
  | EventRaw
  | EventNone
  deriving DecidableEq, Repr

/-- The fields of a `termui.Event` read by `main`; `Typ` is the field `Type`. -/
structure TermEvent where
  Typ : EventType
  Ch : Char
  deriving DecidableEq, Repr

/-- What one iteration of the `select` of `main` receives: a tick of the ticker, or an
event of the terminal. -/
inductive Msg where
  | tick
  | evt (e : TermEvent)
  deriving DecidableEq, Repr

/-- The part of `UIData` that main.go reads: the services.  (`LastTimestamp` is written,
never read, there: its assignment is the event `setLastTimestamp`.) -/
structure UIData (Service : Type) where
  Services : List Service
  deriving DecidableEq, Repr

/-- The actions of the goroutine that runs `main`, as far as they are observed here. -/
inductive Event (Service : Type) where
  | usage
  | stderr (msg : String)
  | setLoggerDebug
  | setDefaultEndpoint (endpoint : String)
  | parsePorts
  | startSelfMonitor
  | parseVars
  | logFatal
  | uiInit (k : UIKind)
  | newTicker (d : Duration)
  | wgAdd
  | goUpdate (s : Service)
  | wgWait
  | setLastTimestamp
  | uiUpdate
  | uiClose
  deriving DecidableEq, Repr

/-- How a run of `main` over the messages received so far stands: the process exited with
a status, panicked, `main` returned, or the loop waits for the next message. -/
inductive Outcome where
  | exit (code : Nat)
  | panic (msg : String)
  | returned
  | running
  deriving DecidableEq, Repr

/-- A run: the events performed, in order, and the outcome. -/
structure Run (Service : Type) where
  trace : List (Event Service)
  outcome : Outcome
  deriving DecidableEq, Repr

/-- Everything `main` takes from outside main.go: the command line, the outcome of reading
the configuration file, the helpers of the other files of the package (each returns the
Go pair of a value and an error), and the outcome of `ui.Init` for each sink. -/
structure World (Url VarName Service Err : Type) where
  argv : List (String × Val)
  configFile : Except String (List (String × Val))
  ParsePortsSlice : List String → List Url × Option Err
  StartSelfMonitor : Url × Option Err
  ParseVarsSlice : List String → List VarName × Option Err
  NewUIData : List VarName → UIData Service
  NewService : Url → List VarName → Service
  uiInit : UIKind → UIData Service → Option Err

/-- Usage reimplements flag.Usage. -/
def Usage {Service : Type} : List (Event Service) := [.usage]

/-- The `for` loop of `UpdateAll`: for each service, `wg.Add(1)` and then
`go service.Update(&wg)`. -/
def startUpdates {Service : Type} (services : List Service) : List (Event Service) :=
  services.flatMap (fun service => [Event.wgAdd, Event.goUpdate service])

/-- UpdateAll collects data from expvars and refreshes UI: the actions of the calling
goroutine, in order.  For each service the counter of the wait group is raised and the
update is started in a goroutine of its own; then the caller waits, stamps the data and
refreshes the UI. -/
def UpdateAll {Service : Type} (data : UIData Service) : List (Event Service) :=
  startUpdates data.Services ++ [.wgWait, .setLastTimestamp, .uiUpdate]

/-- The sink chosen by `main` from the number of services and the flag `dummy`. -/
def chooseUI (n : Nat) (dummy : Bool) : UIKind :=
  let ui := if n > 1 then UIKind.TermUI else UIKind.TermUISingle
  if dummy then UIKind.DummyUI else ui

/-- The `for`/`select` loop of `main` over the messages received; the deferred
`ui.Close()` runs when `main` returns. -/
def eventLoop {Service : Type} (data : UIData Service) : List Msg → Run Service
  | [] => ⟨[], .running⟩
  | .tick :: rest =>
    let r := eventLoop data rest
    ⟨UpdateAll data ++ r.trace, r.outcome⟩
  | .evt e :: rest =>
    if e.Typ = EventType.EventKey ∧ e.Ch = 'q' then
      ⟨[.uiClose], .returned⟩
    else if e.Typ = EventType.EventResize then
      let r := eventLoop data rest
      ⟨Event.uiUpdate :: r.trace, r.outcome⟩
    else eventLoop data rest

/-- The port list of `main` after the ports/urls are processed: the value of
`ParsePortsSlice` (its error is discarded), with the port of the self monitor appended
when `self` is set and the monitor started. -/
def resolvedPorts {Url VarName Service Err : Type} (w : World Url VarName Service Err)
    (g : Globals) : List Url :=
  let ports := (w.ParsePortsSlice g.urls).1
  if g.self then
    match w.StartSelfMonitor with
    | (port, none) => ports ++ [port]
    | (_, some _) => ports
  else ports

/-- The `UIData` of `main`: `NewUIData(vars)` with one `NewService(port, vars)` appended
per port. -/
def newData {Url VarName Service Err : Type} (w : World Url VarName Service Err)
    (ports : List Url) (vars : List VarName) : UIData Service :=
  let data := w.NewUIData vars
  { data with Services := data.Services ++ ports.map (fun port => w.NewService port vars) }

/-- The first actions of `main` after `initConfiguration`: the level of the logger is
raised when `debug` is set, `DefaultEndpoint` is assigned, the ports/urls are parsed and
the self monitor is started when `self` is set. -/
def startup {Service : Type} (g : Globals) : List (Event Service) :=
  (if g.debug then [Event.setLoggerDebug] else [])
    ++ [Event.setDefaultEndpoint g.endpoint]
    -- Process ports/urls
    ++ [Event.parsePorts] ++ (if g.self then [Event.startSelfMonitor] else [])

/-- The body of `main` once `initConfiguration` has returned, with the package-level
variables `g`. -/
def mainBody {Url VarName Service Err : Type} (w : World Url VarName Service Err)
    (g : Globals) (msgs : List Msg) : Run Service :=
  let t := startup g
  let ports := resolvedPorts w g
  if ports.length = 0 then
    ⟨t ++ [.stderr "no ports specified. Use -ports arg to specify ports of Go apps to monitor"]
       ++ Usage, .exit 1⟩
  else if g.interval ≤ 0 then
    ⟨t ++ [.stderr "update interval is not valid. Valid examples: 5s, 1m, 1h30m"]
       ++ Usage, .exit 1⟩
  else
    -- Process vars
    let t := t ++ [Event.parseVars]
    match w.ParseVarsSlice g.varsArg with
    | (_, some _) => ⟨t ++ [.logFatal], .exit 1⟩
    | (vars, none) =>
      -- Init UIData
      let data := newData w ports vars
      -- Start proper UI
      let ui := chooseUI data.Services.length g.dummy
      let t := t ++ [Event.uiInit ui]
      match w.uiInit ui data with
      | some _ => ⟨t ++ [.logFatal], .exit 1⟩
      | none =>
        let t := t ++ [Event.newTicker g.interval]
        let r := eventLoop data msgs
        ⟨t ++ UpdateAll data ++ r.trace, r.outcome⟩

/-- The `UIData` that `main` builds for the package-level variables `g`. -/
def mainData {Url VarName Service Err : Type} (w : World Url VarName Service Err)
    (g : Globals) : UIData Service :=
  newData w (resolvedPorts w g) (w.ParseVarsSlice g.varsArg).1

/-- The function `main` run on the messages `msgs`. -/
def main {Url VarName Service Err : Type} (w : World Url VarName Service Err)
    (msgs : List Msg) : Run Service :=
  match flagParse CommandLine w.argv with
  | none => ⟨Usage, .exit 2⟩
  | some flags =>
    match initConfiguration flags w.configFile Globals.zero with
    | .error msg => ⟨[], .panic msg⟩
    | .ok g => mainBody w g msgs

/-- The package-level variables with which `main` runs after `initConfiguration`, when the
command line parses and the configuration file loads. -/
def configured {Url VarName Service Err : Type} (w : World Url VarName Service Err) :
    Option Globals :=
  match flagParse CommandLine w.argv with
  | none => none
  | some flags =>
    match initConfiguration flags w.configFile Globals.zero with
    | .error _ => none
    | .ok g => some g

/-- The events of a polling round: the actions of `UpdateAll`. -/
def Event.isRound {Service : Type} : Event Service → Bool
  | .wgAdd => true
  | .goUpdate _ => true
  | .wgWait => true
  | .setLastTimestamp => true
  | .uiUpdate => true
  | _ => false

/-- The events that touch the render sink or the ticker. -/
def Event.isUI {Service : Type} : Event Service → Bool
  | .uiInit _ => true
  | .newTicker _ => true
  | .uiUpdate => true
  | .uiClose => true
  | _ => false

/-! ## One round of `UpdateAll`, with its goroutines -/

/-- What is observed of a round: an action of the goroutine that called `UpdateAll`, or
the completion of the update of one service. -/
inductive RoundEvent (Service : Type) where
  | caller (e : Event Service)
  | updateDone (s : Service)
  deriving DecidableEq, Repr

/-- Who moves next: the caller of `UpdateAll`, or the update at position `k` among those
still running. -/
inductive Choice where
  | caller
  | finish (k : Nat)
  deriving DecidableEq, Repr

/-- The state of a round: the actions the caller has still to perform, the counter of the
wait group, the services whose update was started and has not completed, and the events
so far. -/
structure RoundState (Service : Type) where
  todo : List (Event Service)
  wg : Nat
  running : List Service
  trace : List (RoundEvent Service)
  deriving DecidableEq, Repr

/-- The state in which `UpdateAll(ui, data)` is entered: a fresh wait group, no update
running. -/
def RoundState.init {Service : Type} (data : UIData Service) : RoundState Service :=
  { todo := UpdateAll data, wg := 0, running := [], trace := [] }

/-- One action of the caller.  `wg.Add(1)` raises the counter, `go service.Update(&wg)`
starts an update, `wg.Wait()` can only be passed when the counter is zero. -/
def callerStep {Service : Type} (st : RoundState Service) : Option (RoundState Service) :=
  match st.todo with
  | [] => none
  | .wgAdd :: rest =>
    some { st with todo := rest, wg := st.wg + 1, trace := st.trace ++ [.caller .wgAdd] }
  | .goUpdate s :: rest =>
    some { st with todo := rest, running := st.running ++ [s],
                   trace := st.trace ++ [.caller (.goUpdate s)] }
  | .wgWait :: rest =>
    if st.wg = 0 then some { st with todo := rest, trace := st.trace ++ [.caller .wgWait] }
    else none
  | e :: rest => some { st with todo := rest, trace := st.trace ++ [.caller e] }

/-- Modelled from the spec: the method `Service.Update(wg)`, whose file is not among the
sources.  The update of a service is an independent task that resolves (success or
failure) and is joined through the wait group: when it completes it calls `wg.Done()`
once.  `none` when no update runs at position `k`, or when the counter would go negative
(on which `Done` panics). -/
def finishStep {Service : Type} (k : Nat) (st : RoundState Service) :
    Option (RoundState Service) :=
  match st.running[k]? with
  | none => none
  | some s =>
    if st.wg = 0 then none
    else some { st with wg := st.wg - 1, running := st.running.eraseIdx k,
                        trace := st.trace ++ [.updateDone s] }

/-- One step of a round, by the goroutine chosen. -/
def roundStep {Service : Type} (c : Choice) (st : RoundState Service) :
    Option (RoundState Service) :=
  match c with
  | .caller => callerStep st
  | .finish k => finishStep k st

/-- The steps of a schedule, one after the other; `none` when a chosen step cannot be
taken. -/
def runRound {Service : Type} : List Choice → RoundState Service → Option (RoundState Service)
  | [], st => some st
  | c :: cs, st =>
    match roundStep c st with
    | none => none
    | some st1 => runRound cs st1

/-- The services whose update was started in a trace, in order. -/
def startedOf {Service : Type} (tr : List (RoundEvent Service)) : List Service :=
  tr.filterMap (fun e => match e with
    | .caller (.goUpdate s) => some s
    | _ => none)

/-- The services whose update has completed in a trace, in order of completion. -/
def doneOf {Service : Type} (tr : List (RoundEvent Service)) : List Service :=
  tr.filterMap (fun e => match e with
    | .updateDone s => some s
    | _ => none)

/-- The actions of the caller in a trace, in order. -/
def callerOf {Service : Type} (tr : List (RoundEvent Service)) : List (Event Service) :=
  tr.filterMap (fun e => match e with
    | .caller a => some a
    | _ => none)

/-- The number of steps a round has still to take: the actions of the caller, the updates
running, and the updates still to be started. -/
def RoundState.fuel {Service : Type} (st : RoundState Service) : Nat :=
  st.todo.length + st.running.length
    + (st.todo.filter (fun e => match e with
        | .goUpdate _ => true
        | _ => false)).length

/-- The states a round of `UpdateAll data` passes through.  While the caller starts the
updates (`spawning`, and `adding` between `wg.Add(1)` and the `go` statement) the counter
of the wait group is the number of updates running, plus one in between.  Once the caller
is past `wg.Wait()` (`waited`, `stamped`, `refreshed`) every service was started and has
completed. -/
inductive RoundInv {Service : Type} (data : UIData Service) : RoundState Service → Prop
  | spawning (pre rest running : List Service) (trace : List (RoundEvent Service)) :
      data.Services = pre ++ rest → callerOf trace = startUpdates pre →
      startedOf trace = pre → (doneOf trace ++ running).Perm pre →
      RoundInv data ⟨UpdateAll ⟨rest⟩, running.length, running, trace⟩
  | adding (pre : List Service) (s : Service) (rest running : List Service)
      (trace : List (RoundEvent Service)) :
      data.Services = pre ++ s :: rest → callerOf trace = startUpdates pre ++ [.wgAdd] →
      startedOf trace = pre → (doneOf trace ++ running).Perm pre →
      RoundInv data ⟨.goUpdate s :: UpdateAll ⟨rest⟩, running.length + 1, running, trace⟩
  | waited (body : List (RoundEvent Service)) :
      callerOf body = startUpdates data.Services → startedOf body = data.Services →
      (doneOf body).Perm data.Services →
      RoundInv data ⟨[.setLastTimestamp, .uiUpdate], 0, [], body ++ [.caller .wgWait]⟩
  | stamped (body : List (RoundEvent Service)) :
      callerOf body = startUpdates data.Services → startedOf body = data.Services →
      (doneOf body).Perm data.Services →
      RoundInv data ⟨[.uiUpdate], 0, [],
        body ++ [.caller .wgWait, .caller .setLastTimestamp]⟩
  | refreshed (body : List (RoundEvent Service)) :
      callerOf body = startUpdates data.Services → startedOf body = data.Services →
      (doneOf body).Perm data.Services →
      RoundInv data ⟨[], 0, [],
        body ++ [.caller .wgWait, .caller .setLastTimestamp, .caller .uiUpdate]⟩

/-! ## Inputs for the examples -/

/-- A transport and decoder for the examples: port 1234 answers 404 with a body that is a
valid JSON object, port 1235 answers 200 with the same body, port 1236 answers 200 with a
body that does not decode, and nothing listens elsewhere. -/
def netExample : Net String String String :=
  { httpGet := fun addr =>
      if addr = "http://localhost:1234/debug/vars" then .ok ⟨404, "\x7b\x7d"⟩
      else if addr = "http://localhost:1235/debug/vars" then .ok ⟨200, "\x7b\x7d"⟩
      else if addr = "http://localhost:1236/debug/vars" then .ok ⟨200, "oops"⟩
      else .error "connection refused"
    NewObjectFromReader := fun body =>
      if body = "\x7b\x7d" then (some "object", none) else (none, some "invalid character")
    emptyObject := "empty" }

/-- A world for the examples: the helpers of the package succeed, port numbers become
addresses on localhost, and a service is named by its address. -/
def worldExample (argv : List (String × Val)) (cfg : List (String × Val)) :
    World String String String String :=
  { argv := argv
    configFile := .ok cfg
    ParsePortsSlice := fun l => (l.map (fun s => "http://localhost:" ++ s), none)
    StartSelfMonitor := ("http://localhost:32768", none)
    ParseVarsSlice := fun l => (l, none)
    NewUIData := fun _ => ⟨[]⟩
    NewService := fun port _ => port
    uiInit := fun _ _ => none }

/-- The command line `--ports=1234`. -/
def worldOnePort : World String String String String :=
  worldExample [("ports", .str "1234")] []

/-- The command line `--ports=nonsense --self` where the ports do not parse:
`ParsePortsSlice` returns no port and an error. -/
def worldBadPorts : World String String String String :=
  { worldExample [("ports", .str "nonsense"), ("self", .bool true)] [] with
    ParsePortsSlice := fun _ => ([], some "cannot parse ports argument") }

/-- The command line `--ports=1234 --vars=:` where the variables do not parse. -/
def worldBadVars : World String String String String :=
  { worldExample [("ports", .str "1234"), ("vars", .str ":")] [] with
    ParseVarsSlice := fun _ => ([], some "bad variable") }

/-- The command line `--ports=1234 --debug`, with `debug: true` in the configuration file
as well. -/
def worldDebug : World String String String String :=
  worldExample [("ports", .str "1234"), ("debug", .bool true)] [("debug", .bool true)]

/-- The command line `--ports=1234 --i=1m`. -/
def worldInterval : World String String String String :=
  worldExample [("ports", .str "1234"), ("i", .duration Minute)] []

/-- The command line `--ports=1234` with `interval: 0s` in the configuration file. -/
def worldZeroInterval : World String String String String :=
  worldExample [("ports", .str "1234")] [("interval", .duration 0)]

/-- The command line `--ports="1234 1235" --dummy`. -/
def worldDummy : World String String String String :=
  worldExample [("ports", .str "1234 1235"), ("dummy", .bool true)] []

/-- The package-level variables in `worldOnePort`. -/
def globalsOnePort : Globals :=
  { interval := 5 * Second, urls := ["1234"], varsArg := [defaults.vars], dummy := false,
    self := false, endpoint := "/debug/vars", debug := false }

/-- A resize event of the terminal. -/
def resizeEvent : TermEvent := ⟨.EventResize, ' '⟩

/-- The key `q`. -/
def quitEvent : TermEvent := ⟨.EventKey, 'q'⟩

/-- Two services for the examples. -/
def dataTwo : UIData String := ⟨["http://localhost:1234", "http://localhost:1235"]⟩

/-- A schedule of a round over `dataTwo`: the first update completes before the second is
started, the second before the caller waits. -/
def scheduleTwo : List Choice :=
  [.caller, .caller, .caller, .finish 0, .caller, .finish 0, .caller, .caller, .caller]

/-- The state in which `scheduleTwo` leaves the round over `dataTwo`. -/
def stateTwo : RoundState String :=
  { todo := []
    wg := 0
    running := []
    trace :=
      [ .caller .wgAdd, .caller (.goUpdate "http://localhost:1234"), .caller .wgAdd,
        .updateDone "http://localhost:1234", .caller (.goUpdate "http://localhost:1235"),
        .updateDone "http://localhost:1235", .caller .wgWait, .caller .setLastTimestamp,
        .caller .uiUpdate ] }

/-! ## FetchExpvar -/

/-- C1: when the GET succeeds with status 404, `FetchExpvar` returns the untouched empty
`Expvar` and a non-nil error, which is the value `errors.New` builds from the fixed text
"Vars not found. Did you import expvars?", whatever the body and the decoder are; the
error is no error value of the transport or of the decoder, its text is the fixed text,
and the body is closed without ever being parsed. -/
theorem FetchExpvar_not_found {β Obj ε : Type} (net : Net β Obj ε) (addr : String)
    (resp : Response β) (hget : net.httpGet addr = .ok resp)
    (h404 : resp.StatusCode = 404) :
    (FetchExpvar net addr).1
        = (⟨some net.emptyObject⟩,
            some (GoError.errorsNew "Vars not found. Did you import expvars?"))
      ∧ (FetchExpvar net addr).1.2 ≠ none
      ∧ (∀ e : ε, (FetchExpvar net addr).1.2 ≠ some (GoError.fromLib e))
      ∧ (∀ text : ε → String, (FetchExpvar net addr).1.2.map (GoError.Error text)
            = some "Vars not found. Did you import expvars?")
      ∧ (∀ b : β, NetEvent.parse b ∉ (FetchExpvar net addr).2)
      ∧ (FetchExpvar net addr).2 = [.get addr, .close resp.Body] := by
  have h : (FetchExpvar net addr)
      = ((⟨some net.emptyObject⟩,
            some (GoError.errorsNew "Vars not found. Did you import expvars?")),
          [.get addr, .close resp.Body]) := by
    simp [FetchExpvar, hget, h404, StatusNotFound]
  rw [h]
  simp [GoError.Error]

/-- Witness of C1: the address on port 1234 answers 404 with a body that decodes. -/
theorem FetchExpvar_not_found_witness :
    (netExample.NewObjectFromReader "\x7b\x7d").2 = none
      ∧ (FetchExpvar netExample "http://localhost:1234/debug/vars").1
        = (⟨some "empty"⟩, some (GoError.errorsNew "Vars not found. Did you import expvars?")) :=
  ⟨by decide,
   (FetchExpvar_not_found netExample "http://localhost:1234/debug/vars" ⟨404, "\x7b\x7d"⟩
      (by rfl) (by decide)).1⟩

/-- C2: `FetchExpvar` returns an error exactly when the GET fails, or the status is 404,
or `ParseExpvar` fails on the body.  A failed GET returns the error of the transport, a
failed parse the error of the parser, and for every status other than 404 the result is
the result of `ParseExpvar` on the body. -/
theorem FetchExpvar_error_iff {β Obj ε : Type} (net : Net β Obj ε) (addr : String) :
    ((FetchExpvar net addr).1.2 ≠ none ↔
        ((∃ e, net.httpGet addr = .error e)
          ∨ (∃ resp, net.httpGet addr = .ok resp ∧ resp.StatusCode = 404)
          ∨ (∃ resp, net.httpGet addr = .ok resp ∧ (ParseExpvar net resp.Body).2 ≠ none)))
      ∧ (∀ e, net.httpGet addr = .error e →
          (FetchExpvar net addr).1.2 = some (GoError.fromLib e))
      ∧ (∀ resp, net.httpGet addr = .ok resp → resp.StatusCode ≠ 404 →
          (FetchExpvar net addr).1 = ParseExpvar net resp.Body)
      ∧ (∀ resp e, net.httpGet addr = .ok resp → resp.StatusCode ≠ 404 →
          (net.NewObjectFromReader resp.Body).2 = some e →
          (FetchExpvar net addr).1.2 = some (GoError.fromLib e)) := by
  have key : ∀ resp, net.httpGet addr = .ok resp → resp.StatusCode ≠ 404 →
      (FetchExpvar net addr).1 = ParseExpvar net resp.Body := by
    intro resp hget hne
    unfold FetchExpvar
    simp only [hget, StatusNotFound, hne, if_false]
    rcases hp : ParseExpvar net resp.Body with ⟨e, err⟩
    cases err <;> rfl
  refine ⟨?_, ?_, key, ?_⟩
  · cases hget : net.httpGet addr with
    | error e => simp [FetchExpvar, hget]
    | ok resp =>
      by_cases h404 : resp.StatusCode = 404
      · simp [FetchExpvar, hget, h404, StatusNotFound]
      · rw [key resp hget h404]
        simp [h404]
  · intro e hget
    simp [FetchExpvar, hget]
  · intro resp e hget hne hp
    rw [key resp hget hne]
    simp [ParseExpvar, hp]

/-- Witness of C2: on port 1235 (status 200, a body that decodes) no error is returned and
the result is that of `ParseExpvar`; on port 1236 the error is the one of the decoder; on
port 1 it is the one of the transport. -/
theorem FetchExpvar_error_iff_witness :
    (FetchExpvar netExample "http://localhost:1235/debug/vars").1 = (⟨some "object"⟩, none)
      ∧ (FetchExpvar netExample "http://localhost:1236/debug/vars").1.2
          = some (GoError.fromLib "invalid character")
      ∧ (FetchExpvar netExample "http://localhost:1/debug/vars").1.2
          = some (GoError.fromLib "connection refused") :=
  ⟨((FetchExpvar_error_iff netExample "http://localhost:1235/debug/vars").2.2.1
      ⟨200, "\x7b\x7d"⟩ (by rfl) (by decide)).trans (by decide),
   (FetchExpvar_error_iff netExample "http://localhost:1236/debug/vars").2.2.2
      ⟨200, "oops"⟩ "invalid character" (by rfl) (by decide) (by decide),
   (FetchExpvar_error_iff netExample "http://localhost:1/debug/vars").2.1
      "connection refused" (by rfl)⟩

/-! ## The structure of a run of `main` -/

theorem main_of_configured {Url VarName Service Err : Type}
    (w : World Url VarName Service Err) (g : Globals) (msgs : List Msg)
    (h : configured w = some g) : main w msgs = mainBody w g msgs := by
  unfold configured at h
  unfold main
  cases hf : flagParse CommandLine w.argv with
  | none => simp [hf] at h
  | some flags =>
    simp only [hf] at h ⊢
    cases hc : initConfiguration flags w.configFile Globals.zero with
    | error msg => simp [hc] at h
    | ok g1 =>
      simp only [hc] at h ⊢
      cases h
      rfl

theorem main_not_configured {Url VarName Service Err : Type}
    (w : World Url VarName Service Err) (msgs : List Msg)
    (h : configured w = none) :
    (main w msgs).trace ⊆ [Event.usage]
      ∧ (main w msgs).outcome ≠ .running ∧ (main w msgs).outcome ≠ .returned := by
  unfold configured at h
  unfold main
  cases hf : flagParse CommandLine w.argv with
  | none => simp [Usage]
  | some flags =>
    simp only [hf] at h ⊢
    cases hc : initConfiguration flags w.configFile Globals.zero with
    | error msg => simp
    | ok g1 => simp [hc] at h

theorem mainBody_cases {Url VarName Service Err : Type}
    (w : World Url VarName Service Err) (g : Globals) (msgs : List Msg) :
    (resolvedPorts w g = [] ∧ mainBody w g msgs
        = ⟨startup g
            ++ [.stderr "no ports specified. Use -ports arg to specify ports of Go apps to monitor"]
            ++ Usage, .exit 1⟩)
    ∨ (resolvedPorts w g ≠ [] ∧ g.interval ≤ 0 ∧ mainBody w g msgs
        = ⟨startup g
            ++ [.stderr "update interval is not valid. Valid examples: 5s, 1m, 1h30m"]
            ++ Usage, .exit 1⟩)
    ∨ (resolvedPorts w g ≠ [] ∧ 0 < g.interval ∧ (w.ParseVarsSlice g.varsArg).2 ≠ none
        ∧ mainBody w g msgs = ⟨startup g ++ [.parseVars] ++ [.logFatal], .exit 1⟩)
    ∨ (resolvedPorts w g ≠ [] ∧ 0 < g.interval ∧ (w.ParseVarsSlice g.varsArg).2 = none
        ∧ w.uiInit (chooseUI (mainData w g).Services.length g.dummy) (mainData w g) ≠ none
        ∧ mainBody w g msgs
          = ⟨startup g ++ [.parseVars]
              ++ [.uiInit (chooseUI (mainData w g).Services.length g.dummy)]
              ++ [.logFatal], .exit 1⟩)
    ∨ (resolvedPorts w g ≠ [] ∧ 0 < g.interval ∧ (w.ParseVarsSlice g.varsArg).2 = none
        ∧ w.uiInit (chooseUI (mainData w g).Services.length g.dummy) (mainData w g) = none
        ∧ mainBody w g msgs
          = ⟨startup g ++ [.parseVars]
              ++ [.uiInit (chooseUI (mainData w g).Services.length g.dummy)]
              ++ [.newTicker g.interval] ++ UpdateAll (mainData w g)
              ++ (eventLoop (mainData w g) msgs).trace,
             (eventLoop (mainData w g) msgs).outcome⟩) := by
  by_cases hp : resolvedPorts w g = []
  · left
    refine ⟨hp, ?_⟩
    simp [mainBody, hp]
  · right
    have hlen : ¬ (resolvedPorts w g).length = 0 := by
      simpa [List.length_eq_zero] using hp
    by_cases hi : g.interval ≤ 0
    · left
      refine ⟨hp, hi, ?_⟩
      simp [mainBody, hlen, hi]
    · right
      have hi2 : 0 < g.interval := lt_of_not_ge hi
      rcases hv : w.ParseVarsSlice g.varsArg with ⟨vars, err⟩
      cases err with
      | some e =>
        left
        refine ⟨hp, hi2, by simp, ?_⟩
        simp [mainBody, hlen, hi, hv]
      | none =>
        right
        have hd : mainData w g = newData w (resolvedPorts w g) vars := by
          simp [mainData, hv]
        cases hu : w.uiInit (chooseUI (mainData w g).Services.length g.dummy) (mainData w g) with
        | some e =>
          left
          refine ⟨hp, hi2, rfl, by simp, ?_⟩
          rw [hd] at hu ⊢
          simp [mainBody, hlen, hi, hv, hu]
        | none =>
          right
          refine ⟨hp, hi2, rfl, rfl, ?_⟩
          rw [hd] at hu ⊢
          simp [mainBody, hlen, hi, hv, hu]

theorem startup_plain {Service : Type} (g : Globals) (e : Event Service)
    (he : e ∈ (startup g : List (Event Service))) :
    e ≠ .parseVars ∧ e ≠ .logFatal ∧ e.isUI = false ∧ e.isRound = false := by
  unfold startup at he
  simp only [List.mem_append, List.mem_singleton] at he
  rcases he with ((h | h) | h) | h
  · split at h
    · simp only [List.mem_singleton] at h
      subst h
      simp [Event.isUI, Event.isRound]
    · simp at h
  · subst h
    simp [Event.isUI, Event.isRound]
  · subst h
    simp [Event.isUI, Event.isRound]
  · split at h
    · simp only [List.mem_singleton] at h
      subst h
      simp [Event.isUI, Event.isRound]
    · simp at h

theorem startUpdates_mem {Service : Type} (l : List Service) (e : Event Service)
    (h : e ∈ startUpdates l) : e = .wgAdd ∨ ∃ s, e = .goUpdate s := by
  simp only [startUpdates, List.mem_flatMap, List.mem_cons, List.mem_singleton] at h
  rcases h with ⟨s, _, h | h | h⟩
  · exact Or.inl h
  · exact Or.inr ⟨s, h⟩
  · simp at h

theorem UpdateAll_isRound {Service : Type} (data : UIData Service) (e : Event Service)
    (he : e ∈ UpdateAll data) : e.isRound = true := by
  unfold UpdateAll at he
  simp only [List.mem_append, List.mem_cons, List.mem_singleton] at he
  rcases he with h | h | h | h | h
  · rcases startUpdates_mem _ _ h with h1 | ⟨s, h1⟩ <;> subst h1 <;> rfl
  · subst h; rfl
  · subst h; rfl
  · subst h; rfl
  · simp at h

theorem eventLoop_outcome {Service : Type} (data : UIData Service) (ms : List Msg) :
    (eventLoop data ms).outcome = .running ∨ (eventLoop data ms).outcome = .returned := by
  induction ms with
  | nil => left; rfl
  | cons m ms ih =>
    cases m with
    | tick => simpa [eventLoop] using ih
    | evt e =>
      unfold eventLoop
      split
      · right; rfl
      · split
        · simpa using ih
        · exact ih

theorem eventLoop_events {Service : Type} (data : UIData Service) (ms : List Msg)
    (e : Event Service) (he : e ∈ (eventLoop data ms).trace) :
    e.isRound = true ∨ e = .uiClose := by
  induction ms with
  | nil => simp [eventLoop] at he
  | cons m ms ih =>
    cases m with
    | tick =>
      simp only [eventLoop, List.mem_append] at he
      rcases he with h | h
      · exact Or.inl (UpdateAll_isRound data e h)
      · exact ih h
    | evt ev =>
      unfold eventLoop at he
      split at he
      · simp at he
        exact Or.inr he
      · split at he
        · simp only [List.mem_cons] at he
          rcases he with h | h
          · subst h; left; rfl
          · exact ih h
        · exact ih he

theorem eventLoop_snoc {Service : Type} (data : UIData Service) (ms : List Msg) (m : Msg)
    (h : (eventLoop data ms).outcome = .running) :
    eventLoop data (ms ++ [m])
      = ⟨(eventLoop data ms).trace ++ (eventLoop data [m]).trace,
         (eventLoop data [m]).outcome⟩ := by
  induction ms with
  | nil => simp [eventLoop]
  | cons m1 ms ih =>
    cases m1 with
    | tick =>
      simp only [eventLoop] at h
      simp [eventLoop, ih h]
    | evt ev =>
      unfold eventLoop at h
      simp only [List.cons_append]
      rw [eventLoop.eq_3 data ev (ms ++ [m]), eventLoop.eq_3 data ev ms]
      split
      · rename_i hq
        simp [hq] at h
      · rename_i hq
        simp only [hq, if_false] at h
        split
        · rename_i hr
          simp only [hr, if_true] at h
          simp [ih h]
        · rename_i hr
          simp only [hr, if_false] at h
          exact ih h

theorem eventLoop_returned {Service : Type} (data : UIData Service) (ms rest : List Msg)
    (h : (eventLoop data ms).outcome = .returned) :
    eventLoop data (ms ++ rest) = eventLoop data ms := by
  induction ms with
  | nil => simp [eventLoop] at h
  | cons m1 ms ih =>
    cases m1 with
    | tick =>
      simp only [eventLoop] at h
      simp [eventLoop, ih h]
    | evt ev =>
      unfold eventLoop at h
      simp only [List.cons_append]
      rw [eventLoop.eq_3 data ev (ms ++ rest), eventLoop.eq_3 data ev ms]
      split
      · rfl
      · rename_i hq
        simp only [hq, if_false] at h
        split
        · rename_i hr
          simp only [hr, if_true] at h
          simp [ih h]
        · rename_i hr
          simp only [hr, if_false] at h
          exact ih h

theorem eventLoop_single {Service : Type} (data : UIData Service) (m : Msg) :
    eventLoop data [m]
      = (match m with
         | .tick => ⟨UpdateAll data, .running⟩
         | .evt e =>
           if e.Typ = EventType.EventKey ∧ e.Ch = 'q' then ⟨[.uiClose], .returned⟩
           else if e.Typ = EventType.EventResize then ⟨[.uiUpdate], .running⟩
           else ⟨[], .running⟩) := by
  cases m with
  | tick => simp [eventLoop]
  | evt e =>
    simp only [eventLoop]

/-- A run of `main` that is in its loop, or has returned from it, got through the start:
the configuration loaded, there is a port, the interval is positive, the variables parsed
and the sink initialised; its trace on any messages is the start, the first round, and the
trace of the loop. -/
theorem main_in_loop {Url VarName Service Err : Type}
    (w : World Url VarName Service Err) (ms : List Msg)
    (h : (main w ms).outcome = .running ∨ (main w ms).outcome = .returned) :
    ∃ g, configured w = some g ∧ resolvedPorts w g ≠ [] ∧ 0 < g.interval
      ∧ ∀ ms1, main w ms1
          = ⟨startup g ++ [.parseVars]
              ++ [.uiInit (chooseUI (mainData w g).Services.length g.dummy)]
              ++ [.newTicker g.interval] ++ UpdateAll (mainData w g)
              ++ (eventLoop (mainData w g) ms1).trace,
             (eventLoop (mainData w g) ms1).outcome⟩ := by
  cases hc : configured w with
  | none =>
    have := main_not_configured w ms hc
    rcases h with h | h
    · exact absurd h this.2.1
    · exact absurd h this.2.2
  | some g =>
    refine ⟨g, rfl, ?_⟩
    rw [main_of_configured w g ms hc] at h
    rcases mainBody_cases w g ms with ⟨_, e⟩ | ⟨_, _, e⟩ | ⟨_, _, _, e⟩ | ⟨_, _, _, _, e⟩
      | ⟨hp, hi, hv, hu, _⟩
    · rw [e] at h; simp at h
    · rw [e] at h; simp at h
    · rw [e] at h; simp at h
    · rw [e] at h; simp at h
    · refine ⟨hp, hi, ?_⟩
      intro ms1
      rw [main_of_configured w g ms1 hc]
      rcases mainBody_cases w g ms1 with ⟨h1, _⟩ | ⟨_, h1, _⟩ | ⟨_, _, h1, _⟩ | ⟨_, _, _, h1, _⟩
        | ⟨_, _, _, _, e⟩
      · exact absurd h1 hp
      · exact absurd hi (not_lt.mpr h1)
      · exact absurd hv h1
      · exact absurd hu h1
      · exact e

theorem main_early {Url VarName Service Err : Type}
    (w : World Url VarName Service Err) (g : Globals) (msgs : List Msg)
    (hcfg : configured w = some g) (h : resolvedPorts w g = [] ∨ g.interval ≤ 0) :
    (main w msgs).outcome = .exit 1
      ∧ ∀ e ∈ (main w msgs).trace, e ≠ .parseVars ∧ e.isUI = false ∧ e.isRound = false := by
  rw [main_of_configured w g msgs hcfg]
  have plain : ∀ (msg : String) (e : Event Service),
      e ∈ startup g ++ [Event.stderr msg] ++ Usage →
      e ≠ .parseVars ∧ e.isUI = false ∧ e.isRound = false := by
    intro msg e he
    simp only [List.mem_append, List.mem_singleton, Usage] at he
    rcases he with (he | he) | he
    · have := startup_plain g e he
      exact ⟨this.1, this.2.2⟩
    · subst he; simp [Event.isUI, Event.isRound]
    · subst he; simp [Event.isUI, Event.isRound]
  rcases mainBody_cases w g msgs with ⟨_, e⟩ | ⟨_, _, e⟩ | ⟨hp, hi, _⟩ | ⟨hp, hi, _⟩
    | ⟨hp, hi, _⟩
  · rw [e]; exact ⟨rfl, plain _⟩
  · rw [e]; exact ⟨rfl, plain _⟩
  all_goals
    rcases h with h | h
    · exact absurd h hp
    · exact absurd hi (not_lt.mpr h)

theorem main_late_event {Url VarName Service Err : Type}
    (w : World Url VarName Service Err) (msgs : List Msg) (e : Event Service)
    (he : e ∈ (main w msgs).trace)
    (hl : e = Event.parseVars ∨ e.isUI = true ∨ e.isRound = true) :
    ∃ g, configured w = some g ∧ resolvedPorts w g ≠ [] ∧ 0 < g.interval := by
  cases hc : configured w with
  | none =>
    have hsub := (main_not_configured w msgs hc).1 he
    simp only [List.mem_singleton] at hsub
    subst hsub
    simp [Event.isUI, Event.isRound] at hl
  | some g =>
    refine ⟨g, rfl, ?_⟩
    by_contra hneg
    have hor : resolvedPorts w g = [] ∨ g.interval ≤ 0 := by
      by_cases hp : resolvedPorts w g = []
      · exact Or.inl hp
      · right
        by_contra hi
        exact hneg ⟨hp, lt_of_not_ge hi⟩
    have := (main_early w g msgs hc hor).2 e he
    rcases hl with hl | hl | hl
    · exact this.1 hl
    · rw [this.2.1] at hl; cases hl
    · rw [this.2.2] at hl; cases hl

theorem newData_length {Url VarName Service Err : Type}
    (w : World Url VarName Service Err) (ports : List Url) (vars : List VarName) :
    (newData w ports vars : UIData Service).Services.length
      = (w.NewUIData vars).Services.length + ports.length := by
  simp [newData]

/-! ## The claims on `main` -/

/-- C10: `main` reaches the parsing of the variables, any use of the render sink or of the
ticker, and any action of a round only when the configuration loaded, the resolved port
list (with the port of the self monitor, if started) is non-empty and the interval is
strictly positive; every ticker is created with a positive duration; and when the list is
empty or the interval is zero or negative, `main` exits with status 1 without parsing the
variables, touching the sink or the ticker, or running any part of a round. -/
theorem main_guards {Url VarName Service Err : Type}
    (w : World Url VarName Service Err) (msgs : List Msg) :
    ((∃ e ∈ (main w msgs).trace, e = Event.parseVars ∨ e.isUI = true ∨ e.isRound = true) →
        ∃ g, configured w = some g ∧ resolvedPorts w g ≠ [] ∧ 0 < g.interval)
      ∧ (∀ d, Event.newTicker d ∈ (main w msgs).trace → 0 < d)
      ∧ (∀ g, configured w = some g → resolvedPorts w g = [] ∨ g.interval ≤ 0 →
          (main w msgs).outcome = .exit 1
            ∧ ∀ e ∈ (main w msgs).trace,
                e ≠ .parseVars ∧ e.isUI = false ∧ e.isRound = false) := by
  refine ⟨?_, ?_, ?_⟩
  · rintro ⟨e, he, hl⟩
    exact main_late_event w msgs e he hl
  · intro d hd
    obtain ⟨g, hc, _, hi⟩ := main_late_event w msgs (.newTicker d) hd (Or.inr (Or.inl rfl))
    rw [main_of_configured w g msgs hc] at hd
    rcases mainBody_cases w g msgs with ⟨_, e⟩ | ⟨_, _, e⟩ | ⟨_, _, _, e⟩ | ⟨_, _, _, _, e⟩
      | ⟨_, _, _, _, e⟩
    all_goals
      rw [e] at hd
      simp only [List.mem_append, List.mem_singleton, Usage] at hd
    · rcases hd with (hd | hd) | hd
      · have := (startup_plain g _ hd).2.2.1; cases this
      · cases hd
      · cases hd
    · rcases hd with (hd | hd) | hd
      · have := (startup_plain g _ hd).2.2.1; cases this
      · cases hd
      · cases hd
    · rcases hd with (hd | hd) | hd
      · have := (startup_plain g _ hd).2.2.1; cases this
      · cases hd
      · cases hd
    · rcases hd with ((hd | hd) | hd) | hd
      · have := (startup_plain g _ hd).2.2.1; cases this
      · cases hd
      · cases hd
      · cases hd
    · rcases hd with (((((hd | hd) | hd) | hd) | hd) | hd)
      · have := (startup_plain g _ hd).2.2.1; cases this
      · cases hd
      · cases hd
      · cases hd
        exact hi
      · have := UpdateAll_isRound _ _ hd; cases this
      · rcases eventLoop_events _ _ _ hd with h | h
        · cases h
        · cases h
  · intro g hc h
    exact main_early w g msgs hc h

/-- Witness of C10: with `--ports=1234` the ticker is created with the positive default
interval; with `interval: 0s` in the configuration file `main` exits with status 1. -/
theorem main_guards_witness :
    0 < (5 * Second : Duration) ∧ (main worldZeroInterval []).outcome = .exit 1 :=
  ⟨(main_guards worldOnePort []).2.1 (5 * Second) (by decide),
   ((main_guards worldZeroInterval []).2.2
      { globalsOnePort with interval := 0 } (by decide) (Or.inr (by decide))).1⟩

/-- C3, as the code has it: when `ParseVarsSlice` reports an error on the configured
variables, `main` exits with status 1 without touching the render sink or the ticker and
without any action of a round.  The error of `ParsePortsSlice` is discarded, in every run:
`main` does exactly what it does when that helper returns the same ports and no error;
and whatever that helper reports, when the resolved port list is non-empty, the interval
positive, the variables parse and the sink initialises, `main` initialises the sink,
creates the ticker, runs the first round and enters its loop. -/
theorem main_vars_error_fatal {Url VarName Service Err : Type}
    (w : World Url VarName Service Err) (msgs : List Msg) :
    (∀ g, configured w = some g → (w.ParseVarsSlice g.varsArg).2 ≠ none →
        (main w msgs).outcome = .exit 1
          ∧ ∀ e ∈ (main w msgs).trace, e.isUI = false ∧ e.isRound = false)
      ∧ main w msgs
          = main { w with ParsePortsSlice := fun l => ((w.ParsePortsSlice l).1, none) }
              msgs
      ∧ (∀ g, configured w = some g → resolvedPorts w g ≠ [] → 0 < g.interval →
          (w.ParseVarsSlice g.varsArg).2 = none →
          w.uiInit (chooseUI (mainData w g).Services.length g.dummy) (mainData w g) = none →
          main w msgs
            = ⟨startup g ++ [.parseVars]
                ++ [.uiInit (chooseUI (mainData w g).Services.length g.dummy)]
                ++ [.newTicker g.interval] ++ UpdateAll (mainData w g)
                ++ (eventLoop (mainData w g) msgs).trace,
               (eventLoop (mainData w g) msgs).outcome⟩) := by
  refine ⟨?_, rfl, ?_⟩
  · intro g hcfg hv
    by_cases h : resolvedPorts w g = [] ∨ g.interval ≤ 0
    · have := main_early w g msgs hcfg h
      exact ⟨this.1, fun e he => (this.2 e he).2⟩
    · rw [main_of_configured w g msgs hcfg]
      rcases mainBody_cases w g msgs with ⟨h1, _⟩ | ⟨_, h1, _⟩ | ⟨_, _, _, e⟩
        | ⟨_, _, h1, _⟩ | ⟨_, _, h1, _⟩
      · exact absurd (Or.inl h1) h
      · exact absurd (Or.inr h1) h
      · rw [e]
        refine ⟨rfl, ?_⟩
        intro ev hev
        simp only [List.mem_append, List.mem_singleton] at hev
        rcases hev with (hev | hev) | hev
        · exact (startup_plain g ev hev).2.2
        · subst hev; simp [Event.isUI, Event.isRound]
        · subst hev; simp [Event.isUI, Event.isRound]
      · exact absurd h1 hv
      · exact absurd h1 hv
  · intro g hcfg hp hi hv hu
    rw [main_of_configured w g msgs hcfg]
    rcases mainBody_cases w g msgs with ⟨h1, _⟩ | ⟨_, h1, _⟩ | ⟨_, _, h1, _⟩
      | ⟨_, _, _, h1, _⟩ | ⟨_, _, _, _, e⟩
    · exact absurd h1 hp
    · exact absurd hi (not_lt.mpr h1)
    · exact absurd hv h1
    · exact absurd hu h1
    · exact e

/-- Witness of C3: with `--vars=:` the variables do not parse and `main` exits; with
`--ports=nonsense --self` the ports do not parse, and `main` is in its loop all the same,
as it is when the error is not reported. -/
theorem main_vars_error_fatal_witness :
    ((worldBadVars.ParseVarsSlice [":"]).2 ≠ none
        ∧ (main worldBadVars [.tick]).outcome = .exit 1)
      ∧ ((worldBadPorts.ParsePortsSlice ["nonsense"]).2 ≠ none
        ∧ (main worldBadPorts []).outcome = .running
        ∧ main worldBadPorts []
            = main { worldBadPorts with
                ParsePortsSlice := fun l => ((worldBadPorts.ParsePortsSlice l).1, none) }
                []) :=
  ⟨⟨by decide,
    ((main_vars_error_fatal worldBadVars [.tick]).1
      { globalsOnePort with varsArg := [":"] } (by decide) (by decide)).1⟩,
   ⟨by decide,
    (congrArg Run.outcome
      ((main_vars_error_fatal worldBadPorts []).2.2
        { globalsOnePort with urls := ["nonsense"], self := true }
        (by decide) (by decide) (by decide) (by decide) (by decide))).trans rfl,
    (main_vars_error_fatal worldBadPorts []).2.1⟩⟩

/-- Counterexample to C3 as stated: with `--ports=nonsense --self`, `ParsePortsSlice`
reports an error, yet `main` goes on with the port of the self monitor, initialises the
sink and runs the first round. -/
theorem main_ports_error_not_fatal :
    ¬ (∀ (w : World String String String String) (g : Globals) (msgs : List Msg),
        configured w = some g →
        (w.ParsePortsSlice g.urls).2 ≠ none ∨ (w.ParseVarsSlice g.varsArg).2 ≠ none →
        (main w msgs).outcome = .exit 1
          ∧ ∀ e ∈ (main w msgs).trace, e.isUI = false ∧ e.isRound = false) := by
  intro h
  have h1 := h worldBadPorts
    { globalsOnePort with urls := ["nonsense"], self := true } [] (by decide)
    (Or.inl (by decide))
  exact absurd h1.1 (by decide)

/-- C5, as the code has it: a round is run at the start, before any message is received,
and on every tick of the ticker; on a resize event the sink is refreshed and no service
is updated. -/
theorem main_rounds {Url VarName Service Err : Type}
    (w : World Url VarName Service Err) (g : Globals) (ms : List Msg)
    (hcfg : configured w = some g) (hrun : (main w ms).outcome = .running) :
    (∃ pre, (main w []).trace = pre ++ UpdateAll (mainData w g)
        ∧ ∀ e ∈ pre, e.isRound = false)
      ∧ ((main w (ms ++ [.tick])).trace = (main w ms).trace ++ UpdateAll (mainData w g)
          ∧ (main w (ms ++ [.tick])).outcome = .running)
      ∧ (∀ e : TermEvent, e.Typ = .EventResize →
          (main w (ms ++ [.evt e])).trace = (main w ms).trace ++ [.uiUpdate]
            ∧ (main w (ms ++ [.evt e])).outcome = .running) := by
  obtain ⟨g1, hc1, _, _, hall⟩ := main_in_loop w ms (Or.inl hrun)
  rw [hcfg] at hc1
  cases hc1
  have hloop : (eventLoop (mainData w g) ms).outcome = .running := by
    rw [hall ms] at hrun
    exact hrun
  refine ⟨⟨startup g ++ [.parseVars]
      ++ [.uiInit (chooseUI (mainData w g).Services.length g.dummy)]
      ++ [.newTicker g.interval], ?_, ?_⟩, ?_, ?_⟩
  · rw [hall []]
    simp only [eventLoop, List.append_nil]
  · intro e he
    simp only [List.mem_append, List.mem_singleton] at he
    rcases he with ((he | he) | he) | he
    · exact (startup_plain g e he).2.2.2
    · subst he; rfl
    · subst he; rfl
    · subst he; rfl
  · rw [hall (ms ++ [Msg.tick]), hall ms, eventLoop_snoc _ _ _ hloop, eventLoop_single]
    simp
  · intro e he
    rw [hall (ms ++ [Msg.evt e]), hall ms, eventLoop_snoc _ _ _ hloop, eventLoop_single]
    have hq : ¬ (e.Typ = EventType.EventKey ∧ e.Ch = 'q') := by
      rw [he]; simp
    simp [hq, he]

/-- Witness of C5: with `--ports=1234`, a tick after a resize starts a second round. -/
theorem main_rounds_witness :
    (main worldOnePort [.evt resizeEvent]).outcome = .running
      ∧ (main worldOnePort ([.evt resizeEvent] ++ [.tick])).trace
          = (main worldOnePort [.evt resizeEvent]).trace
              ++ UpdateAll (mainData worldOnePort globalsOnePort) :=
  ⟨by decide,
   (main_rounds worldOnePort globalsOnePort [.evt resizeEvent]
      (by decide) (by decide)).2.1.1⟩

/-- Counterexample to C5 as stated: with `--ports=1234`, a resize event does not run a
round: what `main` does on it is not `UpdateAll`. -/
theorem main_resize_no_round :
    ¬ (∀ (w : World String String String String) (g : Globals) (ms : List Msg)
          (e : TermEvent),
        configured w = some g → (main w ms).outcome = .running →
        e.Typ = .EventResize →
        (main w (ms ++ [.evt e])).trace = (main w ms).trace ++ UpdateAll (mainData w g)) := by
  intro h
  have h1 := h worldOnePort globalsOnePort [] resizeEvent (by decide) (by decide)
    (by decide)
  exact absurd h1 (by decide)

/-- C6: the sink that `main` initialises is `chooseUI` of the number of services and of
`dummy`: `DummyUI` whenever `dummy` is set, otherwise `TermUI` for two services or more
and `TermUISingle` for exactly one; and there is at least one service. -/
theorem main_ui_choice {Url VarName Service Err : Type}
    (w : World Url VarName Service Err) (msgs : List Msg) (k : UIKind)
    (h : Event.uiInit k ∈ (main w msgs).trace) :
    ∃ g, configured w = some g
      ∧ k = chooseUI (mainData w g).Services.length g.dummy
      ∧ (g.dummy = true → k = .DummyUI)
      ∧ (g.dummy = false → 2 ≤ (mainData w g).Services.length → k = .TermUI)
      ∧ (g.dummy = false → (mainData w g).Services.length = 1 → k = .TermUISingle)
      ∧ 1 ≤ (mainData w g).Services.length := by
  obtain ⟨g, hc, hp, _⟩ := main_late_event w msgs (.uiInit k) h (Or.inr (Or.inl rfl))
  refine ⟨g, hc, ?_⟩
  have hk : k = chooseUI (mainData w g).Services.length g.dummy := by
    rw [main_of_configured w g msgs hc] at h
    rcases mainBody_cases w g msgs with ⟨_, e⟩ | ⟨_, _, e⟩ | ⟨_, _, _, e⟩ | ⟨_, _, _, _, e⟩
      | ⟨_, _, _, _, e⟩
    all_goals
      rw [e] at h
      simp only [List.mem_append, List.mem_singleton, Usage] at h
    · rcases h with (h | h) | h
      · have := (startup_plain g _ h).2.2.1; cases this
      · cases h
      · cases h
    · rcases h with (h | h) | h
      · have := (startup_plain g _ h).2.2.1; cases this
      · cases h
      · cases h
    · rcases h with (h | h) | h
      · have := (startup_plain g _ h).2.2.1; cases this
      · cases h
      · cases h
    · rcases h with ((h | h) | h) | h
      · have := (startup_plain g _ h).2.2.1; cases this
      · cases h
      · cases h; rfl
      · cases h
    · rcases h with (((((h | h) | h) | h) | h) | h)
      · have := (startup_plain g _ h).2.2.1; cases this
      · cases h
      · cases h; rfl
      · cases h
      · have := UpdateAll_isRound _ _ h; cases this
      · rcases eventLoop_events _ _ _ h with h1 | h1
        · cases h1
        · cases h1
  have hn : 1 ≤ (mainData w g).Services.length := by
    have hpl : 1 ≤ (resolvedPorts w g).length := by
      cases hrp : resolvedPorts w g with
      | nil => exact absurd hrp hp
      | cons a l => simp
    unfold mainData
    rw [newData_length]
    omega
  refine ⟨hk, ?_, ?_, ?_, hn⟩
  · intro hd
    rw [hk]; simp [chooseUI, hd]
  · intro hd h2
    have : (mainData w g).Services.length > 1 := by omega
    rw [hk]; simp [chooseUI, hd, this]
  · intro hd h1
    rw [hk]; simp [chooseUI, hd, h1]

/-- Witness of C6: with `--ports="1234 1235" --dummy` the sink is `DummyUI`. -/
theorem main_ui_choice_witness :
    Event.uiInit UIKind.DummyUI ∈ (main worldDummy []).trace
      ∧ ∃ g, configured worldDummy = some g
          ∧ UIKind.DummyUI = chooseUI (mainData worldDummy g).Services.length g.dummy :=
  ⟨by decide,
   (main_ui_choice worldDummy [] .DummyUI (by decide)).imp (fun _ hg => ⟨hg.1, hg.2.1⟩)⟩

/-- C7: while the loop of `main` runs, the next message makes `main` return exactly when
it is a key event with the character `q`; any other message leaves the loop running.  On
`q` only the deferred `ui.Close()` is performed, and whatever is received afterwards
changes nothing: no further round, no further refresh. -/
theorem main_quit {Url VarName Service Err : Type}
    (w : World Url VarName Service Err) (ms : List Msg) (m : Msg)
    (hrun : (main w ms).outcome = .running) :
    ((main w (ms ++ [m])).outcome = .returned
        ↔ ∃ e, m = .evt e ∧ e.Typ = .EventKey ∧ e.Ch = 'q')
      ∧ ((¬ ∃ e, m = .evt e ∧ e.Typ = .EventKey ∧ e.Ch = 'q') →
          (main w (ms ++ [m])).outcome = .running)
      ∧ ((∃ e, m = .evt e ∧ e.Typ = .EventKey ∧ e.Ch = 'q') →
          (main w (ms ++ [m])).trace = (main w ms).trace ++ [.uiClose]
            ∧ ∀ rest, main w (ms ++ [m] ++ rest) = main w (ms ++ [m])) := by
  obtain ⟨g, _, _, _, hall⟩ := main_in_loop w ms (Or.inl hrun)
  have hloop : (eventLoop (mainData w g) ms).outcome = .running := by
    rw [hall ms] at hrun
    exact hrun
  have hsn := eventLoop_snoc (mainData w g) ms m hloop
  have hquit : ∀ e, m = .evt e → e.Typ = .EventKey → e.Ch = 'q' →
      eventLoop (mainData w g) (ms ++ [m])
        = ⟨(eventLoop (mainData w g) ms).trace ++ [.uiClose], .returned⟩ := by
    intro e hm ht hch
    rw [hsn, eventLoop_single, hm]
    simp [ht, hch]
  have hother : (¬ ∃ e, m = .evt e ∧ e.Typ = .EventKey ∧ e.Ch = 'q') →
      (eventLoop (mainData w g) (ms ++ [m])).outcome = .running := by
    intro hn
    rw [hsn, eventLoop_single]
    cases m with
    | tick => rfl
    | evt e =>
      have hq : ¬ (e.Typ = EventType.EventKey ∧ e.Ch = 'q') := fun hq => hn ⟨e, rfl, hq⟩
      simp only [hq, if_false]
      split_ifs <;> rfl
  refine ⟨⟨?_, ?_⟩, ?_, ?_⟩
  · intro hret
    by_contra hn
    have := hother hn
    rw [hall (ms ++ [m])] at hret
    simp only at hret
    rw [this] at hret
    cases hret
  · rintro ⟨e, hm, ht, hch⟩
    rw [hall (ms ++ [m]), hquit e hm ht hch]
  · intro hn
    rw [hall (ms ++ [m])]
    exact hother hn
  · rintro ⟨e, hm, ht, hch⟩
    refine ⟨?_, ?_⟩
    · rw [hall (ms ++ [m]), hall ms, hquit e hm ht hch]
      simp
    · intro rest
      rw [hall (ms ++ [m] ++ rest), hall (ms ++ [m]),
        eventLoop_returned (mainData w g) (ms ++ [m]) rest (by rw [hquit e hm ht hch])]

/-- Witness of C7: with `--ports=1234`, after a tick the key `q` makes `main` return, and
a tick received after it is not served. -/
theorem main_quit_witness :
    (main worldOnePort [.tick]).outcome = .running
      ∧ (main worldOnePort ([.tick] ++ [.evt quitEvent])).outcome = .returned
      ∧ main worldOnePort ([.tick] ++ [.evt quitEvent] ++ [.tick])
          = main worldOnePort ([.tick] ++ [.evt quitEvent]) :=
  ⟨by decide,
   (main_quit worldOnePort [.tick] (.evt quitEvent) (by decide)).1.2
      ⟨quitEvent, rfl, by decide, by decide⟩,
   ((main_quit worldOnePort [.tick] (.evt quitEvent) (by decide)).2.2
      ⟨quitEvent, rfl, by decide, by decide⟩).2 [.tick]⟩

/-- C8, the code at `--ports=1234 --debug` with `debug: true` in the configuration file:
the flag is set and the file sets the key, yet after `initConfiguration` the variable
`debug` is false and `main` does not raise the level of the logger. -/
theorem debug_never_loaded :
    ((flagParse CommandLine worldDebug.argv).bind (fun fs => Lookup fs "debug")).map
        (fun f => f.Value) = some (Val.bool true)
      ∧ (configStore CommandLine [("debug", .bool true)]).GetBool "debug" = true
      ∧ (configured worldDebug).map (fun g => g.debug) = some false
      ∧ Event.setLoggerDebug ∉ (main worldDebug []).trace := by
  decide

/-- C9, the code at `--ports=1234 --i=1m`: no flag named `interval` is registered, so the
lookup handed to the first `BindPFlag` is nil; the flag `i` holds one minute, yet the
interval read from the key `interval` is the default of five seconds, and the ticker is
created with it. -/
theorem interval_flag_not_bound :
    Lookup CommandLine "interval" = none
      ∧ ((flagParse CommandLine worldInterval.argv).bind (fun fs => Lookup fs "i")).map
          (fun f => f.Value) = some (Val.duration Minute)
      ∧ (configured worldInterval).map (fun g => g.interval) = some (5 * Second)
      ∧ Event.newTicker (5 * Second) ∈ (main worldInterval []).trace
      ∧ Event.newTicker Minute ∉ (main worldInterval []).trace := by
  decide

/-! ## One round -/

theorem perm_cons_eraseIdx {α : Type} (l : List α) (k : Nat) (s : α)
    (h : l[k]? = some s) : (s :: l.eraseIdx k).Perm l := by
  induction l generalizing k with
  | nil => simp at h
  | cons a l ih =>
    cases k with
    | zero =>
      simp at h
      subst h
      simp
    | succ k =>
      simp at h
      simp only [List.eraseIdx_cons_succ]
      exact (List.Perm.swap a s _).trans ((ih k h).cons a)

theorem length_eraseIdx_succ {α : Type} (l : List α) (k : Nat) (s : α)
    (h : l[k]? = some s) : (l.eraseIdx k).length + 1 = l.length := by
  have := (perm_cons_eraseIdx l k s h).length_eq
  simpa using this

theorem startedOf_append {Service : Type} (a b : List (RoundEvent Service)) :
    startedOf (a ++ b) = startedOf a ++ startedOf b := by
  simp [startedOf, List.filterMap_append]

theorem doneOf_append {Service : Type} (a b : List (RoundEvent Service)) :
    doneOf (a ++ b) = doneOf a ++ doneOf b := by
  simp [doneOf, List.filterMap_append]

theorem callerOf_append {Service : Type} (a b : List (RoundEvent Service)) :
    callerOf (a ++ b) = callerOf a ++ callerOf b := by
  simp [callerOf, List.filterMap_append]

theorem startUpdates_append {Service : Type} (a b : List Service) :
    (startUpdates (a ++ b) : List (Event Service)) = startUpdates a ++ startUpdates b := by
  simp [startUpdates, List.flatMap_append]

theorem RoundInv.init {Service : Type} (data : UIData Service) :
    RoundInv data (RoundState.init data) := by
  have := @RoundInv.spawning Service data [] data.Services [] []
    (by simp) (by simp [callerOf, startUpdates]) (by simp [startedOf]) (by simp [doneOf])
  simpa [RoundState.init] using this

theorem RoundInv.step {Service : Type} {data : UIData Service} {st st1 : RoundState Service}
    (c : Choice) (h : RoundInv data st) (hs : roundStep c st = some st1) :
    RoundInv data st1 := by
  cases c with
  | caller =>
    simp only [roundStep] at hs
    cases h with
    | spawning pre rest running trace hsv hc hst hp =>
      cases rest with
      | nil =>
        simp [callerStep, UpdateAll, startUpdates] at hs
        obtain ⟨h0, rfl⟩ := hs
        subst h0
        simp only [List.append_nil] at hsv hp
        rw [← hsv] at hc hst hp
        exact RoundInv.waited trace hc hst hp
      | cons s rest =>
        simp [callerStep, UpdateAll, startUpdates] at hs
        subst hs
        have := @RoundInv.adding Service data pre s rest running
          (trace ++ [.caller .wgAdd]) hsv
          (by rw [callerOf_append, hc]; simp [callerOf])
          (by rw [startedOf_append, hst]; simp [startedOf])
          (by rw [doneOf_append]; simpa [doneOf] using hp)
        simpa [UpdateAll, startUpdates] using this
    | adding pre s rest running trace hsv hc hst hp =>
      simp [callerStep] at hs
      subst hs
      have := @RoundInv.spawning Service data (pre ++ [s]) rest (running ++ [s])
        (trace ++ [.caller (.goUpdate s)]) (by simp [hsv])
        (by rw [callerOf_append, hc, startUpdates_append]; simp [callerOf, startUpdates])
        (by rw [startedOf_append, hst]; simp [startedOf])
        (by
          rw [doneOf_append]
          simp only [doneOf, List.filterMap_cons, List.filterMap_nil, List.append_nil]
          rw [← List.append_assoc]
          exact hp.append_right [s])
      simpa using this
    | waited body hc hst hp =>
      simp [callerStep] at hs
      subst hs
      simpa using RoundInv.stamped body hc hst hp
    | stamped body hc hst hp =>
      simp [callerStep] at hs
      subst hs
      simpa using RoundInv.refreshed body hc hst hp
    | refreshed body hc hst hp =>
      simp [callerStep] at hs
  | finish k =>
    simp only [roundStep] at hs
    cases h with
    | spawning pre rest running trace hsv hc hst hp =>
      simp only [finishStep] at hs
      cases hk : running[k]? with
      | none => simp [hk] at hs
      | some s =>
        simp only [hk] at hs
        have hlen := length_eraseIdx_succ running k s hk
        have hpos : ¬ running.length = 0 := by omega
        simp only [hpos, if_false, Option.some.injEq] at hs
        subst hs
        have := @RoundInv.spawning Service data pre rest (running.eraseIdx k)
          (trace ++ [.updateDone s]) hsv
          (by rw [callerOf_append, hc]; simp [callerOf])
          (by rw [startedOf_append, hst]; simp [startedOf])
          (by
            rw [doneOf_append]
            simp only [doneOf, List.filterMap_cons, List.filterMap_nil, List.append_assoc,
              List.singleton_append]
            exact (List.Perm.append_left _ (perm_cons_eraseIdx running k s hk)).trans hp)
        have hw : running.length - 1 = (running.eraseIdx k).length := by omega
        rw [hw]
        exact this
    | adding pre s0 rest running trace hsv hc hst hp =>
      simp only [finishStep] at hs
      cases hk : running[k]? with
      | none => simp [hk] at hs
      | some s =>
        simp only [hk] at hs
        have hlen := length_eraseIdx_succ running k s hk
        simp only [Nat.add_one_ne_zero, if_false, Option.some.injEq] at hs
        subst hs
        have := @RoundInv.adding Service data pre s0 rest (running.eraseIdx k)
          (trace ++ [.updateDone s]) hsv
          (by rw [callerOf_append, hc]; simp [callerOf])
          (by rw [startedOf_append, hst]; simp [startedOf])
          (by
            rw [doneOf_append]
            simp only [doneOf, List.filterMap_cons, List.filterMap_nil, List.append_assoc,
              List.singleton_append]
            exact (List.Perm.append_left _ (perm_cons_eraseIdx running k s hk)).trans hp)
        have hw : running.length + 1 - 1 = (running.eraseIdx k).length + 1 := by omega
        rw [hw]
        exact this
    | waited body hc hst hp => simp [finishStep] at hs
    | stamped body hc hst hp => simp [finishStep] at hs
    | refreshed body hc hst hp => simp [finishStep] at hs

theorem RoundInv.run {Service : Type} {data : UIData Service} (sched : List Choice)
    {st st1 : RoundState Service} (h : RoundInv data st)
    (hs : runRound sched st = some st1) : RoundInv data st1 := by
  induction sched generalizing st with
  | nil =>
    simp [runRound] at hs
    subst hs
    exact h
  | cons c cs ih =>
    simp only [runRound] at hs
    cases hc : roundStep c st with
    | none => simp [hc] at hs
    | some st2 =>
      simp only [hc] at hs
      exact ih (RoundInv.step c h hc) hs

theorem callerStep_fuel {Service : Type} {st st1 : RoundState Service}
    (hs : callerStep st = some st1) : st1.fuel + 1 = st.fuel := by
  obtain ⟨todo, wg, running, trace⟩ := st
  cases todo with
  | nil => simp [callerStep] at hs
  | cons e rest =>
    cases e <;> simp [callerStep] at hs <;>
      first
        | (subst hs; simp [RoundState.fuel]; omega)
        | (obtain ⟨_, rfl⟩ := hs; simp [RoundState.fuel]; omega)

theorem finishStep_fuel {Service : Type} {st st1 : RoundState Service} (k : Nat)
    (hs : finishStep k st = some st1) : st1.fuel + 1 = st.fuel := by
  obtain ⟨todo, wg, running, trace⟩ := st
  simp only [finishStep] at hs
  cases hk : running[k]? with
  | none => simp [hk] at hs
  | some s =>
    simp only [hk] at hs
    have hlen := length_eraseIdx_succ running k s hk
    by_cases hw : wg = 0
    · simp [hw] at hs
    · simp only [hw, if_false, Option.some.injEq] at hs
      subst hs
      simp only [RoundState.fuel]
      omega

theorem runRound_fuel {Service : Type} (sched : List Choice) {st st1 : RoundState Service}
    (hs : runRound sched st = some st1) : st1.fuel + sched.length = st.fuel := by
  induction sched generalizing st with
  | nil =>
    simp [runRound] at hs
    subst hs
    rfl
  | cons c cs ih =>
    simp only [runRound] at hs
    cases hc : roundStep c st with
    | none => simp [hc] at hs
    | some st2 =>
      simp only [hc] at hs
      have h1 := ih hs
      have h2 : st2.fuel + 1 = st.fuel := by
        cases c with
        | caller => exact callerStep_fuel hc
        | finish k => exact finishStep_fuel k hc
      simp only [List.length_cons]
      omega

theorem init_fuel {Service : Type} (data : UIData Service) :
    (RoundState.init data).fuel = 3 * data.Services.length + 3 := by
  obtain ⟨services⟩ := data
  have h : ∀ l : List Service,
      (startUpdates l : List (Event Service)).length = 2 * l.length
        ∧ ((startUpdates l : List (Event Service)).filter (fun e => match e with
            | .goUpdate _ => true
            | _ => false)).length = l.length := by
    intro l
    induction l with
    | nil => simp [startUpdates]
    | cons a l ih =>
      have hc : (startUpdates (a :: l) : List (Event Service))
          = .wgAdd :: .goUpdate a :: startUpdates l := by
        simp [startUpdates]
      rw [hc]
      simp [ih.1, ih.2]
      omega
  simp only [RoundState.init, RoundState.fuel, UpdateAll, List.length_append,
    List.filter_append, (h services).1, (h services).2]
  simp
  omega

theorem caller_mem_callerOf {Service : Type} (tr : List (RoundEvent Service))
    (e : Event Service) (h : RoundEvent.caller e ∈ tr) : e ∈ callerOf tr := by
  simp only [callerOf, List.mem_filterMap]
  exact ⟨_, h, rfl⟩

theorem not_in_startUpdates {Service : Type} (tr : List (RoundEvent Service))
    (l : List Service) (hc : callerOf tr = startUpdates l) :
    RoundEvent.caller Event.wgWait ∉ tr ∧ RoundEvent.caller Event.setLastTimestamp ∉ tr
      ∧ RoundEvent.caller Event.uiUpdate ∉ tr := by
  refine ⟨?_, ?_, ?_⟩ <;>
  · intro h
    have := caller_mem_callerOf _ _ h
    rw [hc] at this
    rcases startUpdates_mem _ _ this with h1 | ⟨s, h1⟩ <;> cases h1

theorem RoundInv.refreshed_of_mem {Service : Type} {data : UIData Service}
    {st : RoundState Service} (h : RoundInv data st)
    (hu : RoundEvent.caller Event.uiUpdate ∈ st.trace) :
    ∃ body, st = ⟨[], 0, [],
        body ++ [.caller .wgWait, .caller .setLastTimestamp, .caller .uiUpdate]⟩
      ∧ callerOf body = startUpdates data.Services ∧ startedOf body = data.Services
      ∧ (doneOf body).Perm data.Services := by
  cases h with
  | spawning pre rest running trace hsv hc hst hp =>
    exact absurd hu (not_in_startUpdates trace pre hc).2.2
  | adding pre s rest running trace hsv hc hst hp =>
    exfalso
    have := caller_mem_callerOf _ _ hu
    simp only [hc, List.mem_append, List.mem_singleton] at this
    rcases this with h1 | h1
    · rcases startUpdates_mem _ _ h1 with h2 | ⟨s, h2⟩ <;> cases h2
    · cases h1
  | waited body hc hst hp =>
    exfalso
    simp only [List.mem_append, List.mem_singleton] at hu
    rcases hu with h1 | h1
    · exact (not_in_startUpdates body _ hc).2.2 h1
    · cases h1
  | stamped body hc hst hp =>
    exfalso
    simp only [List.mem_append, List.mem_cons, List.mem_singleton] at hu
    rcases hu with h1 | h1 | h1 | h1
    · exact (not_in_startUpdates body _ hc).2.2 h1
    · cases h1
    · cases h1
    · simp at h1
  | refreshed body hc hst hp => exact ⟨body, rfl, hc, hst, hp⟩

theorem RoundInv.progress {Service : Type} {data : UIData Service}
    {st : RoundState Service} (h : RoundInv data st)
    (hu : RoundEvent.caller Event.uiUpdate ∉ st.trace) :
    ∃ c st1, roundStep c st = some st1 := by
  cases h with
  | spawning pre rest running trace hsv hc hst hp =>
    cases rest with
    | nil =>
      cases running with
      | nil => exact ⟨.caller, _, by simp [roundStep, callerStep, UpdateAll, startUpdates]; rfl⟩
      | cons s running => exact ⟨.finish 0, _, by simp [roundStep, finishStep]; rfl⟩
    | cons s rest =>
      exact ⟨.caller, _, by simp [roundStep, callerStep, UpdateAll, startUpdates]; rfl⟩
  | adding pre s rest running trace hsv hc hst hp =>
    exact ⟨.caller, _, by simp [roundStep, callerStep]; rfl⟩
  | waited body hc hst hp => exact ⟨.caller, _, by simp [roundStep, callerStep]; rfl⟩
  | stamped body hc hst hp => exact ⟨.caller, _, by simp [roundStep, callerStep]; rfl⟩
  | refreshed body hc hst hp => simp at hu

theorem RoundInv.started {Service : Type} {data : UIData Service}
    {st : RoundState Service} (h : RoundInv data st) :
    startedOf st.trace <+: data.Services
      ∧ (doneOf st.trace ++ st.running).Perm (startedOf st.trace)
      ∧ st.wg ≤ st.running.length + 1 ∧ st.running.length ≤ st.wg := by
  have hw : ∀ body : List (RoundEvent Service), ∀ l : List (Event Service),
      startedOf body = data.Services → (doneOf body).Perm data.Services →
      (l = [.wgWait] ∨ l = [.wgWait, .setLastTimestamp]
        ∨ l = [.wgWait, .setLastTimestamp, .uiUpdate]) →
      startedOf (body ++ l.map .caller) = data.Services
        ∧ (doneOf (body ++ l.map .caller)).Perm data.Services := by
    intro body l hst hp hl
    rw [startedOf_append, doneOf_append, hst]
    rcases hl with rfl | rfl | rfl <;> simpa [startedOf, doneOf] using hp
  cases h with
  | spawning pre rest running trace hsv hc hst hp =>
    simp only [hst, hsv]
    exact ⟨⟨rest, rfl⟩, hp, by omega, le_refl _⟩
  | adding pre s rest running trace hsv hc hst hp =>
    simp only [hst, hsv]
    exact ⟨⟨s :: rest, rfl⟩, hp, by omega, by omega⟩
  | waited body hc hst hp =>
    have := hw body [.wgWait] hst hp (Or.inl rfl)
    simp only [List.map_cons, List.map_nil] at this
    simp only [this.1, List.append_nil]
    exact ⟨⟨[], List.append_nil _⟩, this.2, by simp, by simp⟩
  | stamped body hc hst hp =>
    have := hw body [.wgWait, .setLastTimestamp] hst hp (Or.inr (Or.inl rfl))
    simp only [List.map_cons, List.map_nil] at this
    simp only [this.1, List.append_nil]
    exact ⟨⟨[], List.append_nil _⟩, this.2, by simp, by simp⟩
  | refreshed body hc hst hp =>
    have := hw body [.wgWait, .setLastTimestamp, .uiUpdate] hst hp (Or.inr (Or.inr rfl))
    simp only [List.map_cons, List.map_nil] at this
    simp only [this.1, List.append_nil]
    exact ⟨⟨[], List.append_nil _⟩, this.2, by simp, by simp⟩

theorem RoundInv.todo_nil {Service : Type} {data : UIData Service}
    {st : RoundState Service} (h : RoundInv data st) (ht : st.todo = []) :
    RoundEvent.caller Event.uiUpdate ∈ st.trace := by
  cases h with
  | spawning pre rest running trace hsv hc hst hp => simp [UpdateAll] at ht
  | adding pre s rest running trace hsv hc hst hp => simp at ht
  | waited body hc hst hp => simp at ht
  | stamped body hc hst hp => simp at ht
  | refreshed body hc hst hp => simp

theorem trace_nil_of_quiet {Service : Type} (tr : List (RoundEvent Service))
    (hc : callerOf tr = []) (hd : doneOf tr = []) : tr = [] := by
  cases tr with
  | nil => rfl
  | cons e tr =>
    cases e with
    | caller a => simp [callerOf] at hc
    | updateDone s => simp [doneOf] at hd

/-- C4: in every state a round of `UpdateAll data` can reach, under any schedule of the
caller and of the updates: the updates started so far are an initial segment of
`data.Services` (one per service, in order, none twice), and each is running or has
completed; once `ui.Update` has been called, the trace is a body followed by `wg.Wait()`,
the assignment of `LastTimestamp` and `ui.Update`, where in the body exactly the services
of `data.Services` were started, all of them completed, and neither the assignment nor
`ui.Update` occurs, so that `ui.Update` is called once, after every completion and after
the stamp, and nothing is left to do; with no service the trace is just the wait, the
stamp and the refresh.  The round always gets there: as long as the UI is not refreshed
some goroutine can step, every running update can complete, and a schedule has at most
`3 * n + 3` steps, the last of which is the refresh. -/
theorem UpdateAll_round {Service : Type} (data : UIData Service) (sched : List Choice)
    (st : RoundState Service) (h : runRound sched (RoundState.init data) = some st) :
    startedOf st.trace <+: data.Services
      ∧ (doneOf st.trace ++ st.running).Perm (startedOf st.trace)
      ∧ (RoundEvent.caller Event.uiUpdate ∈ st.trace →
          ∃ body, st.trace
              = body ++ [.caller .wgWait, .caller .setLastTimestamp, .caller .uiUpdate]
            ∧ startedOf body = data.Services ∧ (doneOf body).Perm data.Services
            ∧ RoundEvent.caller Event.wgWait ∉ body
            ∧ RoundEvent.caller Event.setLastTimestamp ∉ body
            ∧ RoundEvent.caller Event.uiUpdate ∉ body
            ∧ st.todo = [] ∧ st.running = []
            ∧ (data.Services = [] → body = []))
      ∧ (RoundEvent.caller Event.uiUpdate ∉ st.trace → ∃ c st1, roundStep c st = some st1)
      ∧ (∀ k s, st.running[k]? = some s → ∃ st1, roundStep (.finish k) st = some st1)
      ∧ sched.length ≤ 3 * data.Services.length + 3
      ∧ (sched.length = 3 * data.Services.length + 3 →
          RoundEvent.caller Event.uiUpdate ∈ st.trace) := by
  have hinv : RoundInv data st := RoundInv.run sched (RoundInv.init data) h
  have hfuel := runRound_fuel sched h
  rw [init_fuel] at hfuel
  have hst := hinv.started
  refine ⟨hst.1, hst.2.1, ?_, hinv.progress, ?_, by omega, ?_⟩
  · intro hu
    obtain ⟨body, rfl, hc, hs, hp⟩ := hinv.refreshed_of_mem hu
    have hq := not_in_startUpdates body _ hc
    refine ⟨body, rfl, hs, hp, hq.1, hq.2.1, hq.2.2, rfl, rfl, ?_⟩
    intro he
    rw [he] at hc hp
    exact trace_nil_of_quiet body (by simpa [startUpdates] using hc) (by simpa using hp)
  · intro k s hk
    have hlen := length_eraseIdx_succ st.running k s hk
    have hw : ¬ st.wg = 0 := by
      have := hst.2.2.2
      omega
    exact ⟨_, by simp only [roundStep, finishStep, hk, hw, if_false]; rfl⟩
  · intro hl
    apply hinv.todo_nil
    have h0 : st.fuel = 0 := by omega
    simp only [RoundState.fuel] at h0
    have : st.todo.length = 0 := by omega
    exact List.length_eq_zero.mp this

/-- Witness of C4: the round over two services under `scheduleTwo` ends in `stateTwo`,
where both updates were started and completed before the refresh. -/
theorem UpdateAll_round_witness :
    runRound scheduleTwo (RoundState.init dataTwo) = some stateTwo
      ∧ ∃ body, stateTwo.trace
            = body ++ [.caller .wgWait, .caller .setLastTimestamp, .caller .uiUpdate]
          ∧ startedOf body = dataTwo.Services ∧ (doneOf body).Perm dataTwo.Services :=
  ⟨by decide,
   ((UpdateAll_round dataTwo scheduleTwo stateTwo (by decide)).2.2.1 (by decide)).imp
     (fun _ hb => ⟨hb.1, hb.2.1, hb.2.2.1⟩)⟩

/-- The function `initConfiguration` leaves the variable `debug` as it found it. -/
theorem initConfiguration_debug (flags : List Flag)
    (configFile : Except String (List (String × Val))) (g0 g : Globals)
    (h : initConfiguration flags configFile g0 = .ok g) : g.debug = g0.debug := by
  unfold initConfiguration at h
  cases configFile with
  | error err => simp at h
  | ok cfg =>
    simp only [Except.ok.injEq] at h
    subst h
    rfl

/-- Whatever the command line and the configuration file are, `main` runs with `debug`
false. -/
theorem configured_debug {Url VarName Service Err : Type}
    (w : World Url VarName Service Err) (g : Globals) (h : configured w = some g) :
    g.debug = false := by
  unfold configured at h
  cases hf : flagParse CommandLine w.argv with
  | none => simp [hf] at h
  | some flags =>
    simp only [hf] at h
    cases hc : initConfiguration flags w.configFile Globals.zero with
    | error msg => simp [hc] at h
    | ok g1 =>
      simp only [hc, Option.some.injEq] at h
      subst h
      exact initConfiguration_debug flags w.configFile Globals.zero g1 hc

end Expvarmon
